import Mathlib

/-!
# Verification of the nautilus-ai traffic forwarder

A shallow embedding of `src/nautilus-server/traffic_forwarder.py`: a
bidirectional byte-stream bridge between a TCP listener and a fixed
VSOCK peer.  The module has three pieces:

* `forward source destination` — a unidirectional copy loop (a *Pump*):
  repeatedly `recv(1024)` from the source; on nonempty data `sendall`
  to the destination; on empty data shut down the source's read side
  and the destination's write side and exit the loop normally; on
  `ConnectionResetError` or any other exception close both sockets
  and break.

* `server local_ip local_port remote_cid remote_port` — an infinite
  outer loop that creates/binds/listens a socket, then an infinite
  inner accept loop: `accept`, open a VSOCK connection to the peer,
  spawn two `forward` threads.  Exceptions in the inner loop body are
  caught by the inner handler (log, sleep 1); exceptions during the
  setup phase are caught by the outer handler (log, sleep 5, close).

* `main` — parses four positional arguments, spawns the server thread,
  then loops `time.sleep(60)` forever.

The embedding makes the environment explicit: each blocking I/O call's
outcome is supplied by a script, and each function returns the list of
observable actions it performed together with its termination status.
-/

set_option maxHeartbeats 1000000

namespace TrafficForwarder

/-- A byte; a chunk returned by `recv` is a list of bytes. -/
abbrev Chunk := List Nat

/-- The two socket handles a Pump holds: its source and its destination. -/
inductive Sock where
  | src
  | dst
deriving DecidableEq

/-- The two exception classes the Pump's handlers distinguish:
`ConnectionResetError` and any other `Exception`. -/
inductive Exn where
  | reset
  | other
deriving DecidableEq

/-- Outcome of one `source.recv(1024)` call: data returned (the empty
chunk signals end-of-stream) or an exception raised. -/
inductive RecvRes where
  | bytes (d : Chunk)
  | exn (e : Exn)
deriving DecidableEq

/-- Outcome of one `destination.sendall(data)` call: `sendall` either
writes the whole buffer or raises. -/
inductive SendRes where
  | ok
  | exn (e : Exn)
deriving DecidableEq

/-- One loop iteration's environment behaviour: the recv outcome and
the sendall outcome (the latter is consulted only when the recv
returned nonempty data). -/
abbrev Iter := RecvRes × SendRes

/-- Observable actions performed by a Pump, over a socket-identifier
type `σ` (`Sock` for a single pump, `SockId` at the session level). -/
inductive Act (σ : Type) where
  | recv (d : Chunk)
  | sendall (d : Chunk)
  | shutdownRd (s : σ)
  | shutdownWr (s : σ)
  | close (s : σ)
  | logWarn
  | logError
deriving DecidableEq

/-- How a Pump's loop ended: `normal` (empty read, half-close, the
`while string` condition became false), `errored` (exception handler
closed both sockets and broke out), or `blocked` (the script ran out
while the Pump was still waiting on I/O). -/
inductive PumpEnd where
  | normal
  | errored
  | blocked
deriving DecidableEq

/-- The Pump. Mirrors `forward(source, destination)`:

```python
string = ' '
while string:
    try:
        string = source.recv(1024)
        if string:
            destination.sendall(string)
        else:
            source.shutdown(socket.SHUT_RD)
            destination.shutdown(socket.SHUT_WR)
    except ConnectionResetError as e:
        print(...); source.close(); destination.close(); break
    except Exception as e:
        print(...); source.close(); destination.close(); break
```

The script lists the environment's response to each iteration. -/
def forward : List Iter → List (Act Sock) × PumpEnd
  | [] => ([], .blocked)
  | (r, sr) :: rest =>
    match r with
    | .exn .reset => ([.logWarn, .close .src, .close .dst], .errored)
    | .exn .other => ([.logError, .close .src, .close .dst], .errored)
    | .bytes [] => ([.recv [], .shutdownRd .src, .shutdownWr .dst], .normal)
    | .bytes (b :: bs) =>
      match sr with
      | .ok =>
        let res := forward rest
        (.recv (b :: bs) :: .sendall (b :: bs) :: res.1, res.2)
      | .exn .reset => ([.recv (b :: bs), .logWarn, .close .src, .close .dst], .errored)
      | .exn .other => ([.recv (b :: bs), .logError, .close .src, .close .dst], .errored)

/-- All bytes passed to `sendall` calls in a trace, concatenated in order. -/
def writtenBytes {σ : Type} : List (Act σ) → Chunk
  | [] => []
  | .sendall d :: rest => d ++ writtenBytes rest
  | _ :: rest => writtenBytes rest

/-- All bytes returned by `recv` calls in a trace, concatenated in order. -/
def readBytes {σ : Type} : List (Act σ) → Chunk
  | [] => []
  | .recv d :: rest => d ++ readBytes rest
  | _ :: rest => readBytes rest

/-- Whether a trace contains any further `recv` action. -/
def hasRecv {σ : Type} : List (Act σ) → Bool
  | [] => false
  | .recv _ :: _ => true
  | _ :: rest => hasRecv rest

/-- Every nonempty `recv` is immediately followed by a `sendall` of
exactly the same bytes — unless no further read is ever attempted. -/
def chunksForwarded {σ : Type} [DecidableEq σ] : List (Act σ) → Bool
  | [] => true
  | .recv [] :: rest => chunksForwarded rest
  | .recv (b :: bs) :: .sendall d :: rest =>
      decide (d = b :: bs) && chunksForwarded rest
  | .recv (_ :: _) :: rest => !hasRecv rest
  | _ :: rest => chunksForwarded rest

/-- Claim C1: for every sequence of chunks delivered by the source
socket to a Pump, the bytes written to the destination are exactly the
concatenation of the bytes read, in order; whenever a read returns a
nonempty chunk, all of its bytes are written (via the write-all
`sendall`) before the next read is attempted. -/
theorem forward_exact_stream (script : List Iter)
    (h : ∀ p ∈ script, p.2 = SendRes.ok) :
    writtenBytes (forward script).1 = readBytes (forward script).1 ∧
    chunksForwarded (forward script).1 = true := by
  induction script with
  | nil => simp [forward, writtenBytes, readBytes, chunksForwarded]
  | cons p rest ih =>
    obtain ⟨r, sr⟩ := p
    have hs : sr = SendRes.ok := h (r, sr) (by simp)
    subst hs
    have hrest : ∀ q ∈ rest, q.2 = SendRes.ok := fun q hq => h q (by simp [hq])
    have ihr := ih hrest
    match r with
    | .exn .reset =>
        simp [forward, writtenBytes, readBytes, chunksForwarded]
    | .exn .other =>
        simp [forward, writtenBytes, readBytes, chunksForwarded]
    | .bytes [] =>
        simp [forward, writtenBytes, readBytes, chunksForwarded]
    | .bytes (b :: bs) =>
        simp only [forward]
        refine ⟨?_, ?_⟩
        · simp [writtenBytes, readBytes, ihr.1]
        · simp [chunksForwarded, ihr.2]

/-- Witness for C1 at a concrete script: two data chunks then EOF. -/
theorem forward_exact_stream_w :
    writtenBytes (forward [(RecvRes.bytes [1, 2], SendRes.ok),
        (RecvRes.bytes [3], SendRes.ok), (RecvRes.bytes [], SendRes.ok)]).1
      = readBytes (forward [(RecvRes.bytes [1, 2], SendRes.ok),
        (RecvRes.bytes [3], SendRes.ok), (RecvRes.bytes [], SendRes.ok)]).1 ∧
    chunksForwarded (forward [(RecvRes.bytes [1, 2], SendRes.ok),
        (RecvRes.bytes [3], SendRes.ok), (RecvRes.bytes [], SendRes.ok)]).1 = true :=
  forward_exact_stream _ (by decide)

/-- An iteration on which the Pump's loop keeps running: the recv
returned nonempty data and the sendall succeeded. -/
def liveIter : Iter → Bool
  | (.bytes (_ :: _), .ok) => true
  | _ => false

/-- The trace produced by a run of live iterations. -/
def okTrace : List Iter → List (Act Sock)
  | [] => []
  | (RecvRes.bytes d, _) :: rest => .recv d :: .sendall d :: okTrace rest
  | _ :: rest => okTrace rest

/-- A run of live iterations just accumulates recv/sendall pairs and
the Pump continues on the remainder of the script. -/
theorem forward_append_live (pre t : List Iter)
    (h : ∀ p ∈ pre, liveIter p = true) :
    forward (pre ++ t) = (okTrace pre ++ (forward t).1, (forward t).2) := by
  induction pre with
  | nil => simp [okTrace]
  | cons p pre ih =>
    obtain ⟨r, sr⟩ := p
    have hp : liveIter (r, sr) = true := h _ (by simp)
    have hrest : ∀ q ∈ pre, liveIter q = true := fun q hq => h q (by simp [hq])
    match r, sr with
    | .bytes (b :: bs), .ok =>
        simp [forward, okTrace, ih hrest]
    | .bytes [], _ => simp [liveIter] at hp
    | .exn _, _ => simp [liveIter] at hp
    | .bytes (_ :: _), .exn _ => simp [liveIter] at hp

/-- The trace of a live run contains no close action. -/
theorem okTrace_no_close (l : List Iter) (s : Sock) :
    Act.close s ∉ okTrace l := by
  induction l with
  | nil => simp [okTrace]
  | cons p rest ih =>
    obtain ⟨r, sr⟩ := p
    match r with
    | .bytes d => simp [okTrace, ih]
    | .exn e => simp [okTrace, ih]

/-- The trace of a live run contains no shutdown action. -/
theorem okTrace_no_shutdown (l : List Iter) (s : Sock) :
    Act.shutdownRd s ∉ okTrace l ∧ Act.shutdownWr s ∉ okTrace l := by
  induction l with
  | nil => simp [okTrace]
  | cons p rest ih =>
    obtain ⟨r, sr⟩ := p
    match r with
    | .bytes d => simpa [okTrace] using ih
    | .exn e => simpa [okTrace] using ih

/-- Claim C2: if a read returns zero bytes after any run of live
iterations, the Pump shuts down the source's read side and the
destination's write side, terminates normally, and never calls full
close on either socket. -/
theorem forward_eof_halfclose (pre rest : List Iter) (sr : SendRes)
    (h : ∀ p ∈ pre, liveIter p = true) :
    (forward (pre ++ (RecvRes.bytes [], sr) :: rest)).2 = PumpEnd.normal ∧
    (∃ pfx, (forward (pre ++ (RecvRes.bytes [], sr) :: rest)).1
        = pfx ++ [Act.shutdownRd Sock.src, Act.shutdownWr Sock.dst]) ∧
    (∀ s, Act.close s ∉ (forward (pre ++ (RecvRes.bytes [], sr) :: rest)).1) := by
  have key := forward_append_live pre ((RecvRes.bytes [], sr) :: rest) h
  have heof : forward ((RecvRes.bytes [], sr) :: rest)
      = ([Act.recv [], Act.shutdownRd Sock.src, Act.shutdownWr Sock.dst],
         PumpEnd.normal) := by
    cases sr <;> rfl
  rw [heof] at key
  refine ⟨by rw [key], ⟨okTrace pre ++ [Act.recv []], by rw [key]; simp⟩, ?_⟩
  intro s
  rw [key]
  simp [okTrace_no_close]

/-- Witness for C2: one live chunk then EOF. -/
theorem forward_eof_halfclose_w :
    (forward ([(RecvRes.bytes [5], SendRes.ok)] ++
        (RecvRes.bytes [], SendRes.ok) :: [])).2 = PumpEnd.normal ∧
    (∃ pfx, (forward ([(RecvRes.bytes [5], SendRes.ok)] ++
        (RecvRes.bytes [], SendRes.ok) :: [])).1
        = pfx ++ [Act.shutdownRd Sock.src, Act.shutdownWr Sock.dst]) ∧
    (∀ s, Act.close s ∉ (forward ([(RecvRes.bytes [5], SendRes.ok)] ++
        (RecvRes.bytes [], SendRes.ok) :: [])).1) :=
  forward_eof_halfclose [(RecvRes.bytes [5], SendRes.ok)] [] SendRes.ok (by decide)

/-- An iteration on which the Pump's exception handlers fire: the recv
raised, or it returned data and the sendall raised. -/
def errIter : Iter → Bool
  | (.exn _, _) => true
  | (.bytes (_ :: _), .exn _) => true
  | _ => false

/-- Claim C3: if any I/O call raises — connection reset or any other
exception — the Pump fully closes both sockets and terminates on the
error path, attempting no half-close. -/
theorem forward_error_dualclose (pre rest : List Iter) (r : RecvRes) (sr : SendRes)
    (h : ∀ p ∈ pre, liveIter p = true)
    (herr : errIter (r, sr) = true) :
    (forward (pre ++ (r, sr) :: rest)).2 = PumpEnd.errored ∧
    (∃ pfx, (forward (pre ++ (r, sr) :: rest)).1
        = pfx ++ [Act.close Sock.src, Act.close Sock.dst]) ∧
    (∀ s, Act.shutdownRd s ∉ (forward (pre ++ (r, sr) :: rest)).1 ∧
          Act.shutdownWr s ∉ (forward (pre ++ (r, sr) :: rest)).1) := by
  have key := forward_append_live pre ((r, sr) :: rest) h
  have herr' : ∃ mid, forward ((r, sr) :: rest)
      = (mid ++ [Act.close Sock.src, Act.close Sock.dst], PumpEnd.errored) ∧
        (∀ s : Sock, Act.shutdownRd s ∉ mid ∧ Act.shutdownWr s ∉ mid) := by
    match r, sr with
    | .exn .reset, _ => exact ⟨[Act.logWarn], rfl, by intro s; cases s <;> simp⟩
    | .exn .other, _ => exact ⟨[Act.logError], rfl, by intro s; cases s <;> simp⟩
    | .bytes (b :: bs), .exn .reset =>
        exact ⟨[Act.recv (b :: bs), Act.logWarn], rfl, by
          intro s; cases s <;> simp⟩
    | .bytes (b :: bs), .exn .other =>
        exact ⟨[Act.recv (b :: bs), Act.logError], rfl, by
          intro s; cases s <;> simp⟩
    | .bytes [], _ => simp [errIter] at herr
    | .bytes (_ :: _), .ok => simp [errIter] at herr
  obtain ⟨mid, hmid, hnos⟩ := herr'
  rw [hmid] at key
  refine ⟨by rw [key], ⟨okTrace pre ++ mid, by rw [key]; simp⟩, ?_⟩
  intro s
  rw [key]
  constructor
  · simp [(okTrace_no_shutdown pre s).1, (hnos s).1]
  · simp [(okTrace_no_shutdown pre s).2, (hnos s).2]

/-- Witness for C3: one live chunk then a reset on the next recv. -/
theorem forward_error_dualclose_w :
    (forward ([(RecvRes.bytes [7], SendRes.ok)] ++
        (RecvRes.exn Exn.reset, SendRes.ok) :: [])).2 = PumpEnd.errored ∧
    (∃ pfx, (forward ([(RecvRes.bytes [7], SendRes.ok)] ++
        (RecvRes.exn Exn.reset, SendRes.ok) :: [])).1
        = pfx ++ [Act.close Sock.src, Act.close Sock.dst]) ∧
    (∀ s, Act.shutdownRd s ∉ (forward ([(RecvRes.bytes [7], SendRes.ok)] ++
        (RecvRes.exn Exn.reset, SendRes.ok) :: [])).1 ∧
          Act.shutdownWr s ∉ (forward ([(RecvRes.bytes [7], SendRes.ok)] ++
        (RecvRes.exn Exn.reset, SendRes.ok) :: [])).1) :=
  forward_error_dualclose [(RecvRes.bytes [7], SendRes.ok)] []
    (RecvRes.exn Exn.reset) SendRes.ok (by decide) (by decide)

/-- Claim C8: a read of exactly the chunk size 1024 is forwarded and
the loop reads again (the Pump continues on the rest of the script);
moreover the read loop never terminates on its own: as long as every
iteration is live, the Pump is still running. -/
theorem forward_full_chunk_loops (pre rest : List Iter) (d : Chunk)
    (h : ∀ p ∈ pre, liveIter p = true) (hd : d.length = 1024) :
    forward (pre ++ (RecvRes.bytes d, SendRes.ok) :: rest)
      = (okTrace pre ++ Act.recv d :: Act.sendall d :: (forward rest).1,
         (forward rest).2) ∧
    (∀ s : List Iter, (∀ p ∈ s, liveIter p = true) →
        (forward s).2 = PumpEnd.blocked) := by
  constructor
  · match d, hd with
    | b :: bs, _ =>
      have key := forward_append_live pre ((RecvRes.bytes (b :: bs), SendRes.ok) :: rest) h
      rw [key]
      simp [forward]
  · intro s hs
    induction s with
    | nil => rfl
    | cons p s ih =>
      obtain ⟨r, sr⟩ := p
      have hp : liveIter (r, sr) = true := hs _ (by simp)
      have hrest : ∀ q ∈ s, liveIter q = true := fun q hq => hs q (by simp [hq])
      match r, sr with
      | .bytes (b :: bs), .ok => simpa [forward] using ih hrest
      | .bytes [], _ => simp [liveIter] at hp
      | .exn _, _ => simp [liveIter] at hp
      | .bytes (_ :: _), .exn _ => simp [liveIter] at hp

/-- Witness for C8: a single read of 1024 bytes with an empty prefix. -/
theorem forward_full_chunk_loops_w :
    forward ([] ++ (RecvRes.bytes (List.replicate 1024 0), SendRes.ok) :: [])
      = (okTrace [] ++ Act.recv (List.replicate 1024 0)
          :: Act.sendall (List.replicate 1024 0) :: (forward []).1,
         (forward []).2) ∧
    (∀ s : List Iter, (∀ p ∈ s, liveIter p = true) →
        (forward s).2 = PumpEnd.blocked) :=
  forward_full_chunk_loops [] [] (List.replicate 1024 0) (by simp)
    (by rw [List.length_replicate])

/-- Outcome of `server_socket.connect((remote_cid, remote_port))` for one
accepted client. -/
inductive ConnectRes where
  | ok
  | fail
deriving DecidableEq

/-- One iteration of the inner accept loop, as the environment drives it:
either `dock_socket.accept()` raises, or it returns client `c` and the
subsequent peer connect succeeds or raises. -/
inductive InnerEv where
  | acceptFail
  | acceptOk (c : Nat) (cr : ConnectRes)
deriving DecidableEq

/-- One round of the outer loop: either the setup phase (socket creation,
`bind`, `listen`) raises, or it succeeds and the inner accept loop runs,
driven by the listed iterations. -/
inductive OuterEv where
  | setupFail
  | setupOk (inner : List InnerEv)
deriving DecidableEq

/-- Observable actions performed by the `server` function's own thread. -/
inductive SAct where
  | bindAttempt
  | listenStart
  | acceptConn (c : Nat)
  | connectPeer (c : Nat)
  | spawnOutgoing (c : Nat)
  | spawnIncoming (c : Nat)
  | logError
  | sleep (n : Nat)
  | closeListener
  | closeClient (c : Nat)
deriving DecidableEq

/-- Where the `server` function stands when its script runs out.  The
function can also, in principle, return or let an exception escape to
its caller; the theorems below show it never does. -/
inductive ServerOutcome where
  | awaitingSetup
  | awaitingAccept
  | returned
  | raisedToCaller
deriving DecidableEq

/-- The inner accept loop's trace.  Mirrors:

```python
while True:
    try:
        client_socket, addr = dock_socket.accept()
        server_socket = socket.socket(socket.AF_VSOCK, socket.SOCK_STREAM)
        server_socket.connect((remote_cid, remote_port))
        outgoing_thread = threading.Thread(target=forward, args=(client_socket, server_socket))
        incoming_thread = threading.Thread(target=forward, args=(server_socket, client_socket))
        outgoing_thread.start()
        incoming_thread.start()
    except Exception as e:
        print(f"[ERROR] Error handling connection: {e}")
        time.sleep(1)
```

Every exception raised in the body — including one raised by `accept`
itself — is caught here: the handler logs and sleeps one unit, and the
loop continues.  The client socket is not closed on the failure path. -/
def innerTrace : List InnerEv → List SAct
  | [] => []
  | .acceptFail :: rest => .logError :: .sleep 1 :: innerTrace rest
  | .acceptOk c .fail :: rest =>
      .acceptConn c :: .logError :: .sleep 1 :: innerTrace rest
  | .acceptOk c .ok :: rest =>
      .acceptConn c :: .connectPeer c :: .spawnOutgoing c
        :: .spawnIncoming c :: innerTrace rest

/-- The `server` function.  Mirrors:

```python
while True:
    try:
        dock_socket = socket.socket(...); dock_socket.setsockopt(...)
        dock_socket.bind((local_ip, local_port)); dock_socket.listen(5)
        print(f"[INFO] Traffic forwarder listening on ...")
        while True:
            ... # inner accept loop, see innerTrace
    except Exception as e:
        print(f"[ERROR] Server error: {e}")
        time.sleep(5)  # Wait before retry
        try:
            dock_socket.close()
        except:
            pass
```

The outer handler is reachable only from the setup phase, because the
inner loop catches every `Exception` itself; so once setup succeeds the
remaining outer events are never consumed. -/
def server : List OuterEv → List SAct × ServerOutcome
  | [] => ([], .awaitingSetup)
  | .setupFail :: rest =>
      let res := server rest
      (.bindAttempt :: .logError :: .sleep 5 :: .closeListener :: res.1, res.2)
  | .setupOk inner :: _ =>
      (.bindAttempt :: .listenStart :: innerTrace inner, .awaitingAccept)

/-- The inner trace is a homomorphism for list append. -/
theorem innerTrace_append (a b : List InnerEv) :
    innerTrace (a ++ b) = innerTrace a ++ innerTrace b := by
  induction a with
  | nil => simp [innerTrace]
  | cons e rest ih =>
    match e with
    | .acceptFail => simp [innerTrace, ih]
    | .acceptOk c .fail => simp [innerTrace, ih]
    | .acceptOk c .ok => simp [innerTrace, ih]

/-- The server loop never returns and never lets an exception escape:
whenever its script runs out it is still waiting on setup or accept. -/
theorem server_outcome_cases (script : List OuterEv) :
    (server script).2 = ServerOutcome.awaitingSetup ∨
    (server script).2 = ServerOutcome.awaitingAccept := by
  induction script with
  | nil => left; rfl
  | cons e rest ih =>
    match e with
    | .setupFail => simpa [server] using ih
    | .setupOk inner => right; rfl

/-- The inner accept loop never closes a client socket. -/
theorem innerTrace_no_closeClient (l : List InnerEv) (k : Nat) :
    SAct.closeClient k ∉ innerTrace l := by
  induction l with
  | nil => simp [innerTrace]
  | cons e rest ih =>
    match e with
    | .acceptFail => simp [innerTrace, ih]
    | .acceptOk c .fail => simp [innerTrace, ih]
    | .acceptOk c .ok => simp [innerTrace, ih]

/-- The server never closes a client socket on any path. -/
theorem server_no_closeClient (script : List OuterEv) (k : Nat) :
    SAct.closeClient k ∉ (server script).1 := by
  induction script with
  | nil => simp [server]
  | cons e rest ih =>
    match e with
    | .setupFail => simp [server, ih]
    | .setupOk inner => simp [server, innerTrace_no_closeClient]

/-- Counterexample to claim C4: on a bind failure the server does not
signal anything to its caller — it logs, sleeps 5 units, closes the
socket and is back at the top of the outer loop, awaiting another
setup attempt. -/
theorem server_bindfail_not_raised :
    (server [OuterEv.setupFail]).1
      = [SAct.bindAttempt, SAct.logError, SAct.sleep 5, SAct.closeListener] ∧
    (server [OuterEv.setupFail]).2 = ServerOutcome.awaitingSetup ∧
    (server [OuterEv.setupFail]).2 ≠ ServerOutcome.raisedToCaller := by
  decide

/-- Claim C4 (amended): on bind failure the Listener handles the error
internally — it logs, waits 5 time units, closes the socket and retries
the setup — and no error is ever signalled to the caller. -/
theorem server_bindfail_retries (rest : List OuterEv) :
    server (OuterEv.setupFail :: rest)
      = (SAct.bindAttempt :: SAct.logError :: SAct.sleep 5
          :: SAct.closeListener :: (server rest).1, (server rest).2) ∧
    (∀ script : List OuterEv,
        (server script).2 ≠ ServerOutcome.raisedToCaller) := by
  refine ⟨rfl, fun script h => ?_⟩
  rcases server_outcome_cases script with hc | hc <;> rw [hc] at h <;> exact
    (ServerOutcome.noConfusion h)

/-- Counterexample to claim C5: client 1's peer connect fails; the loop
logs, sleeps 1 unit and moves on to accept client 2, but client 1's
socket is never closed. -/
theorem server_connectfail_no_close_cex :
    (server [OuterEv.setupOk [InnerEv.acceptOk 1 ConnectRes.fail,
        InnerEv.acceptOk 2 ConnectRes.ok]]).1
      = [SAct.bindAttempt, SAct.listenStart, SAct.acceptConn 1, SAct.logError,
         SAct.sleep 1, SAct.acceptConn 2, SAct.connectPeer 2,
         SAct.spawnOutgoing 2, SAct.spawnIncoming 2] ∧
    SAct.closeClient 1 ∉ (server [OuterEv.setupOk [InnerEv.acceptOk 1 ConnectRes.fail,
        InnerEv.acceptOk 2 ConnectRes.ok]]).1 := by
  decide

/-- Claim C5 (amended): on a per-connection error during handoff the
loop reports the error, waits a backoff of 1 time unit and continues
accepting, and no such error terminates the Listener — but the failed
client's socket is not closed (it is leaked). -/
theorem server_connectfail_continues (pre rest : List InnerEv) (c : Nat)
    (outer : List OuterEv) :
    innerTrace (pre ++ InnerEv.acceptOk c ConnectRes.fail :: rest)
      = innerTrace pre ++ SAct.acceptConn c :: SAct.logError
          :: SAct.sleep 1 :: innerTrace rest ∧
    (server (OuterEv.setupOk (pre ++ InnerEv.acceptOk c ConnectRes.fail :: rest)
        :: outer)).2 = ServerOutcome.awaitingAccept ∧
    (∀ k, SAct.closeClient k ∉ (server (OuterEv.setupOk
        (pre ++ InnerEv.acceptOk c ConnectRes.fail :: rest) :: outer)).1) := by
  refine ⟨?_, rfl, fun k => server_no_closeClient _ k⟩
  rw [innerTrace_append]
  rfl

/-- Counterexample to claim C6: two consecutive accept failures are
handled by the inner per-connection handler — log and sleep 1 each —
with no close of the listening socket, no 5-unit wait, and no re-bind
(`bindAttempt` occurs exactly once). -/
theorem server_acceptfail_no_rebind_cex :
    (server [OuterEv.setupOk [InnerEv.acceptFail, InnerEv.acceptFail]]).1
      = [SAct.bindAttempt, SAct.listenStart, SAct.logError, SAct.sleep 1,
         SAct.logError, SAct.sleep 1] ∧
    SAct.closeListener ∉ (server [OuterEv.setupOk [InnerEv.acceptFail,
        InnerEv.acceptFail]]).1 ∧
    SAct.sleep 5 ∉ (server [OuterEv.setupOk [InnerEv.acceptFail,
        InnerEv.acceptFail]]).1 ∧
    ((server [OuterEv.setupOk [InnerEv.acceptFail,
        InnerEv.acceptFail]]).1).count SAct.bindAttempt = 1 := by
  decide

/-- Claim C6 (amended): an error raised by accept is caught by the inner
handler, which logs and waits 1 time unit and then retries accept on the
same socket; the close-then-rebind path (log, 5-unit wait, close) runs
only for setup-phase errors, and once the accept loop is entered the
Listener never leaves it — later outer rounds are unreachable and the
inner loop performs no close of the listening socket and no re-bind. -/
theorem server_acceptfail_inner_retry (pre rest inner : List InnerEv)
    (outer : List OuterEv) :
    innerTrace (pre ++ InnerEv.acceptFail :: rest)
      = innerTrace pre ++ SAct.logError :: SAct.sleep 1 :: innerTrace rest ∧
    server (OuterEv.setupOk inner :: outer)
      = (SAct.bindAttempt :: SAct.listenStart :: innerTrace inner,
         ServerOutcome.awaitingAccept) ∧
    SAct.closeListener ∉ innerTrace inner ∧
    SAct.bindAttempt ∉ innerTrace inner := by
  refine ⟨?_, rfl, ?_, ?_⟩
  · rw [innerTrace_append]; rfl
  · induction inner with
    | nil => simp [innerTrace]
    | cons e rest' ih =>
      match e with
      | .acceptFail => simp [innerTrace, ih]
      | .acceptOk c .fail => simp [innerTrace, ih]
      | .acceptOk c .ok => simp [innerTrace, ih]
  · induction inner with
    | nil => simp [innerTrace]
    | cons e rest' ih =>
      match e with
      | .acceptFail => simp [innerTrace, ih]
      | .acceptOk c .fail => simp [innerTrace, ih]
      | .acceptOk c .ok => simp [innerTrace, ih]

/-- Counterexample to claim C9: with two clients accepted in a row, the
peer connect for client 1 appears in the accept loop's own synchronous
trace, strictly before the accept of client 2 — establishing the first
Session's peer connection blocks the acceptance of the next client. -/
theorem server_connect_blocks_accept_cex :
    (server [OuterEv.setupOk [InnerEv.acceptOk 1 ConnectRes.ok,
        InnerEv.acceptOk 2 ConnectRes.ok]]).1
      = [SAct.bindAttempt, SAct.listenStart,
         SAct.acceptConn 1, SAct.connectPeer 1, SAct.spawnOutgoing 1,
         SAct.spawnIncoming 1, SAct.acceptConn 2, SAct.connectPeer 2,
         SAct.spawnOutgoing 2, SAct.spawnIncoming 2] ∧
    SAct.connectPeer 1 ∈ (server [OuterEv.setupOk [InnerEv.acceptOk 1 ConnectRes.ok,
        InnerEv.acceptOk 2 ConnectRes.ok]]).1 ∧
    ((server [OuterEv.setupOk [InnerEv.acceptOk 1 ConnectRes.ok,
        InnerEv.acceptOk 2 ConnectRes.ok]]).1).indexOf (SAct.connectPeer 1)
      < ((server [OuterEv.setupOk [InnerEv.acceptOk 1 ConnectRes.ok,
        InnerEv.acceptOk 2 ConnectRes.ok]]).1).indexOf (SAct.acceptConn 2) := by
  decide

/-- Claim C9 (amended): on each successful accept the loop synchronously
opens the connection to the remote peer, then spawns the two relay
Pumps asynchronously and immediately resumes accepting: the Pumps' relay
I/O happens in spawned threads, but establishing a Session's peer
connection happens inline in the accept loop and does delay subsequent
accepts. -/
theorem server_accept_resumes_after_spawn (pre rest : List InnerEv) (c : Nat) :
    innerTrace (pre ++ InnerEv.acceptOk c ConnectRes.ok :: rest)
      = innerTrace pre ++ SAct.acceptConn c :: SAct.connectPeer c
          :: SAct.spawnOutgoing c :: SAct.spawnIncoming c :: innerTrace rest := by
  rw [innerTrace_append]
  rfl

/-- A Pump that ended normally did so via the half-close path: its
trace contains the shutdown of the source's read side and of the
destination's write side, and no close of any socket. -/
theorem forward_normal_trace (s : List Iter)
    (h : (forward s).2 = PumpEnd.normal) :
    Act.shutdownRd Sock.src ∈ (forward s).1 ∧
    Act.shutdownWr Sock.dst ∈ (forward s).1 ∧
    (∀ x, Act.close x ∉ (forward s).1) := by
  induction s with
  | nil => simp [forward] at h
  | cons p rest ih =>
    obtain ⟨r, sr⟩ := p
    match r, sr with
    | .exn .reset, _ => simp [forward] at h
    | .exn .other, _ => simp [forward] at h
    | .bytes [], _ =>
        refine ⟨by simp [forward], by simp [forward], fun x => ?_⟩
        cases x <;> simp [forward]
    | .bytes (b :: bs), .ok =>
        have hr : (forward rest).2 = PumpEnd.normal := by
          simpa [forward] using h
        obtain ⟨h1, h2, h3⟩ := ih hr
        refine ⟨by simp [forward, h1], by simp [forward, h2], fun x => ?_⟩
        simp [forward, h3 x]
    | .bytes (b :: bs), .exn .reset => simp [forward] at h
    | .bytes (b :: bs), .exn .other => simp [forward] at h

/-- A Pump that ended on the error path closed both of its sockets. -/
theorem forward_errored_trace (s : List Iter)
    (h : (forward s).2 = PumpEnd.errored) :
    Act.close Sock.src ∈ (forward s).1 ∧ Act.close Sock.dst ∈ (forward s).1 := by
  induction s with
  | nil => simp [forward] at h
  | cons p rest ih =>
    obtain ⟨r, sr⟩ := p
    match r, sr with
    | .exn .reset, _ => exact ⟨by simp [forward], by simp [forward]⟩
    | .exn .other, _ => exact ⟨by simp [forward], by simp [forward]⟩
    | .bytes [], _ => simp [forward] at h
    | .bytes (b :: bs), .ok =>
        have hr : (forward rest).2 = PumpEnd.errored := by
          simpa [forward] using h
        obtain ⟨h1, h2⟩ := ih hr
        exact ⟨by simp [forward, h1], by simp [forward, h2]⟩
    | .bytes (b :: bs), .exn .reset => exact ⟨by simp [forward], by simp [forward]⟩
    | .bytes (b :: bs), .exn .other => exact ⟨by simp [forward], by simp [forward]⟩

/-- The two sockets of a Session: the accepted client connection and
the freshly opened VSOCK connection to the remote peer. -/
inductive SockId where
  | client
  | peer
deriving DecidableEq

/-- Relabel the socket identifiers in an action. -/
def Act.mapSock {σ τ : Type} (f : σ → τ) : Act σ → Act τ
  | .recv d => .recv d
  | .sendall d => .sendall d
  | .shutdownRd s => .shutdownRd (f s)
  | .shutdownWr s => .shutdownWr (f s)
  | .close s => .close (f s)
  | .logWarn => .logWarn
  | .logError => .logError

/-- The outgoing Pump is `forward(client_socket, server_socket)`: its
source is the client, its destination the peer. -/
def outgoingSide : Sock → SockId
  | .src => .client
  | .dst => .peer

/-- The incoming Pump is `forward(server_socket, client_socket)`: its
source is the peer, its destination the client. -/
def incomingSide : Sock → SockId
  | .src => .peer
  | .dst => .client

/-- The socket-level actions a Session's two Pumps perform, given the
environment scripts of the outgoing and the incoming Pump. -/
def sessionTrace (sA sB : List Iter) : List (Act SockId) :=
  ((forward sA).1.map (Act.mapSock outgoingSide)) ++
    ((forward sB).1.map (Act.mapSock incomingSide))

/-- Only a close relabels to a close. -/
theorem mapSock_close_inv {σ τ : Type} (f : σ → τ) (a : Act σ) (x : τ)
    (h : Act.mapSock f a = Act.close x) : ∃ s, a = Act.close s ∧ f s = x := by
  cases a with
  | close s =>
      refine ⟨s, rfl, ?_⟩
      simpa [Act.mapSock] using h
  | recv d => simp [Act.mapSock] at h
  | sendall d => simp [Act.mapSock] at h
  | shutdownRd s => simp [Act.mapSock] at h
  | shutdownWr s => simp [Act.mapSock] at h
  | logWarn => simp [Act.mapSock] at h
  | logError => simp [Act.mapSock] at h

/-- A relabelled trace with no closes still has no closes. -/
theorem no_close_map {σ τ : Type} (f : σ → τ) (tr : List (Act σ)) (x : τ)
    (h : ∀ s, Act.close s ∉ tr) :
    Act.close x ∉ List.map (Act.mapSock f) tr := by
  intro hmem
  obtain ⟨a, ha, hfa⟩ := List.mem_map.mp hmem
  obtain ⟨s, rfl, _⟩ := mapSock_close_inv f a x hfa
  exact h s ha

/-- Counterexample to claim C7: both directions see a clean end-of-stream,
so both Pumps terminate normally — yet neither the client socket nor
the peer socket is ever closed: close is only called on error paths. -/
theorem session_clean_eof_no_close_cex :
    (forward [(RecvRes.bytes [], SendRes.ok)]).2 = PumpEnd.normal ∧
    Act.close SockId.client ∉
      sessionTrace [(RecvRes.bytes [], SendRes.ok)] [(RecvRes.bytes [], SendRes.ok)] ∧
    Act.close SockId.peer ∉
      sessionTrace [(RecvRes.bytes [], SendRes.ok)] [(RecvRes.bytes [], SendRes.ok)] := by
  decide

/-- Claim C7 (amended): once both Pumps of a Session have terminated,
every socket has been released as far as the code releases it: if either
Pump took its error path, it closed both the client and the peer socket;
if both Pumps terminated via clean end-of-stream, each socket has had
both its read side and its write side shut down, but close is never
called on either socket. -/
theorem session_teardown (sA sB : List Iter)
    (hA : (forward sA).2 ≠ PumpEnd.blocked)
    (hB : (forward sB).2 ≠ PumpEnd.blocked) :
    ((forward sA).2 = PumpEnd.normal ∨ (forward sA).2 = PumpEnd.errored) ∧
    ((forward sB).2 = PumpEnd.normal ∨ (forward sB).2 = PumpEnd.errored) ∧
    ((forward sA).2 = PumpEnd.errored →
        Act.close SockId.client ∈ sessionTrace sA sB ∧
        Act.close SockId.peer ∈ sessionTrace sA sB) ∧
    ((forward sB).2 = PumpEnd.errored →
        Act.close SockId.client ∈ sessionTrace sA sB ∧
        Act.close SockId.peer ∈ sessionTrace sA sB) ∧
    ((forward sA).2 = PumpEnd.normal → (forward sB).2 = PumpEnd.normal →
        (Act.shutdownRd SockId.client ∈ sessionTrace sA sB ∧
         Act.shutdownWr SockId.client ∈ sessionTrace sA sB ∧
         Act.shutdownRd SockId.peer ∈ sessionTrace sA sB ∧
         Act.shutdownWr SockId.peer ∈ sessionTrace sA sB) ∧
        Act.close SockId.client ∉ sessionTrace sA sB ∧
        Act.close SockId.peer ∉ sessionTrace sA sB) := by
  refine ⟨?_, ?_, fun hAe => ?_, fun hBe => ?_, fun hAn hBn => ?_⟩
  · cases h : (forward sA).2 with
    | normal => exact Or.inl rfl
    | errored => exact Or.inr rfl
    | blocked => exact absurd h hA
  · cases h : (forward sB).2 with
    | normal => exact Or.inl rfl
    | errored => exact Or.inr rfl
    | blocked => exact absurd h hB
  · obtain ⟨h1, h2⟩ := forward_errored_trace sA hAe
    constructor
    · exact List.mem_append_left _
        (List.mem_map_of_mem (Act.mapSock outgoingSide) h1)
    · exact List.mem_append_left _
        (List.mem_map_of_mem (Act.mapSock outgoingSide) h2)
  · obtain ⟨h1, h2⟩ := forward_errored_trace sB hBe
    constructor
    · exact List.mem_append_right _
        (List.mem_map_of_mem (Act.mapSock incomingSide) h2)
    · exact List.mem_append_right _
        (List.mem_map_of_mem (Act.mapSock incomingSide) h1)
  · obtain ⟨hA1, hA2, hA3⟩ := forward_normal_trace sA hAn
    obtain ⟨hB1, hB2, hB3⟩ := forward_normal_trace sB hBn
    refine ⟨⟨?_, ?_, ?_, ?_⟩, ?_, ?_⟩
    · exact List.mem_append_left _
        (List.mem_map_of_mem (Act.mapSock outgoingSide) hA1)
    · exact List.mem_append_right _
        (List.mem_map_of_mem (Act.mapSock incomingSide) hB2)
    · exact List.mem_append_right _
        (List.mem_map_of_mem (Act.mapSock incomingSide) hB1)
    · exact List.mem_append_left _
        (List.mem_map_of_mem (Act.mapSock outgoingSide) hA2)
    · intro hmem
      rcases List.mem_append.mp hmem with hc | hc
      · exact no_close_map outgoingSide _ _ hA3 hc
      · exact no_close_map incomingSide _ _ hB3 hc
    · intro hmem
      rcases List.mem_append.mp hmem with hc | hc
      · exact no_close_map outgoingSide _ _ hA3 hc
      · exact no_close_map incomingSide _ _ hB3 hc

/-- Witness for C7: both Pumps see an immediate clean end-of-stream. -/
theorem session_teardown_w :
    ((forward [(RecvRes.bytes [], SendRes.ok)]).2 = PumpEnd.normal ∨
        (forward [(RecvRes.bytes [], SendRes.ok)]).2 = PumpEnd.errored) ∧
    ((forward [(RecvRes.bytes [], SendRes.ok)]).2 = PumpEnd.normal ∨
        (forward [(RecvRes.bytes [], SendRes.ok)]).2 = PumpEnd.errored) ∧
    ((forward [(RecvRes.bytes [], SendRes.ok)]).2 = PumpEnd.errored →
        Act.close SockId.client ∈ sessionTrace [(RecvRes.bytes [], SendRes.ok)]
          [(RecvRes.bytes [], SendRes.ok)] ∧
        Act.close SockId.peer ∈ sessionTrace [(RecvRes.bytes [], SendRes.ok)]
          [(RecvRes.bytes [], SendRes.ok)]) ∧
    ((forward [(RecvRes.bytes [], SendRes.ok)]).2 = PumpEnd.errored →
        Act.close SockId.client ∈ sessionTrace [(RecvRes.bytes [], SendRes.ok)]
          [(RecvRes.bytes [], SendRes.ok)] ∧
        Act.close SockId.peer ∈ sessionTrace [(RecvRes.bytes [], SendRes.ok)]
          [(RecvRes.bytes [], SendRes.ok)]) ∧
    ((forward [(RecvRes.bytes [], SendRes.ok)]).2 = PumpEnd.normal →
      (forward [(RecvRes.bytes [], SendRes.ok)]).2 = PumpEnd.normal →
        (Act.shutdownRd SockId.client ∈ sessionTrace [(RecvRes.bytes [], SendRes.ok)]
            [(RecvRes.bytes [], SendRes.ok)] ∧
         Act.shutdownWr SockId.client ∈ sessionTrace [(RecvRes.bytes [], SendRes.ok)]
            [(RecvRes.bytes [], SendRes.ok)] ∧
         Act.shutdownRd SockId.peer ∈ sessionTrace [(RecvRes.bytes [], SendRes.ok)]
            [(RecvRes.bytes [], SendRes.ok)] ∧
         Act.shutdownWr SockId.peer ∈ sessionTrace [(RecvRes.bytes [], SendRes.ok)]
            [(RecvRes.bytes [], SendRes.ok)]) ∧
        Act.close SockId.client ∉ sessionTrace [(RecvRes.bytes [], SendRes.ok)]
          [(RecvRes.bytes [], SendRes.ok)] ∧
        Act.close SockId.peer ∉ sessionTrace [(RecvRes.bytes [], SendRes.ok)]
          [(RecvRes.bytes [], SendRes.ok)]) :=
  session_teardown [(RecvRes.bytes [], SendRes.ok)] [(RecvRes.bytes [], SendRes.ok)]
    (by decide) (by decide)

/-- Status of the keep-alive loop after some number of iterations. -/
inductive LoopStatus where
  | running
  | exited
deriving DecidableEq

/-- The keep-alive loop of `main`: `while True: time.sleep(60)`.  The
body never breaks or returns, so after any number of iterations the
loop is still running. -/
def mainLoop : Nat → LoopStatus
  | 0 => .running
  | n + 1 => mainLoop n

/-- The parsed configuration: `local_ip = str(args[0])`,
`local_port = int(args[1])`, `remote_cid = int(args[2])`,
`remote_port = int(args[3])`. -/
structure Config where
  local_ip : String
  local_port : Int
  remote_cid : Int
  remote_port : Int
deriving DecidableEq

/-- Value of a decimal digit character, if it is one. -/
def digitVal (c : Char) : Option Nat :=
  if c.isDigit then some (c.toNat - 48) else none

/-- Accumulate decimal digits left to right; any non-digit fails. -/
def parseDigits : List Char → Nat → Option Nat
  | [], acc => some acc
  | c :: rest, acc =>
    match digitVal c with
    | some d => parseDigits rest (acc * 10 + d)
    | none => none

/-- A nonempty run of decimal digits. -/
def parseNat : List Char → Option Nat
  | [] => none
  | ds => parseDigits ds 0

/-- Python's `int(s)` on a plain decimal string, possibly with a leading
minus sign; any other content raises `ValueError` (modelled as `none`). -/
def pyInt (s : String) : Option Int :=
  match s.data with
  | '-' :: rest => (parseNat rest).map (fun n => -(n : Int))
  | ds => (parseNat ds).map Int.ofNat

/-- Argument parsing in `main`: indexing past the end of the argument
list raises `IndexError`, and `int()` on a non-numeric string raises
`ValueError`; both abort startup. -/
def parseArgs : List String → Option Config
  | a0 :: a1 :: a2 :: a3 :: _ =>
    match pyInt a1, pyInt a2, pyInt a3 with
    | some p, some cid, some rp => some ⟨a0, p, cid, rp⟩
    | _, _, _ => none
  | _ => none

/-- How a run of the process's entry point can end. -/
inductive MainOutcome where
  | startupFailure
  | running
  | returned
deriving DecidableEq

/-- The entry point `main(args)`: parse the four positional arguments
(failure aborts startup), spawn the server thread, then loop on
`time.sleep(60)` forever. -/
def main (args : List String) (fuel : Nat) : MainOutcome :=
  match parseArgs args with
  | none => .startupFailure
  | some _ =>
    match mainLoop fuel with
    | .running => .running
    | .exited => .returned

/-- Claim C10: once startup succeeds (the arguments parse and the
forwarder thread is launched), the entry point never returns: the
keep-alive loop is still running after any number of iterations, and
the server loop never returns nor raises to its caller on any input. -/
theorem main_never_exits (args : List String) (cfg : Config) (fuel : Nat)
    (h : parseArgs args = some cfg) :
    main args fuel = MainOutcome.running ∧
    (∀ script : List OuterEv,
        (server script).2 ≠ ServerOutcome.returned ∧
        (server script).2 ≠ ServerOutcome.raisedToCaller) := by
  have hml : ∀ n, mainLoop n = LoopStatus.running := by
    intro n
    induction n with
    | zero => rfl
    | succ n ih => simpa [mainLoop] using ih
  constructor
  · simp [main, h, hml fuel]
  · intro script
    rcases server_outcome_cases script with hc | hc <;> rw [hc] <;>
      exact ⟨by simp, by simp⟩

/-- Witness for C10 at a concrete, well-formed argument vector. -/
theorem main_never_exits_w :
    main ["127.0.0.1", "9000", "3", "9001"] 5 = MainOutcome.running ∧
    (∀ script : List OuterEv,
        (server script).2 ≠ ServerOutcome.returned ∧
        (server script).2 ≠ ServerOutcome.raisedToCaller) :=
  main_never_exits ["127.0.0.1", "9000", "3", "9001"]
    ⟨"127.0.0.1", 9000, 3, 9001⟩ 5 (by decide)

end TrafficForwarder
